import Mathlib

/-!
Verification of the mozart flow editor: the graph execution / data
propagation engine and the autosave-and-versioning persistence engine,
shallowly embedded from the TypeScript source (the node components, the
flow container, the autosave hook, and the REST handlers for flows and
flow definitions).

JavaScript runtime values exchanged between nodes are modelled by
`JsonValue`; asynchronous platform primitives (`JSON.parse`, `axios`,
the sandboxed `new Function` evaluation) are modelled as explicit
function parameters so that every code path of the embedded handlers
stays executable and checkable on concrete inputs.
-/

namespace Mozart

mutual
/-- JSON-compatible runtime values, mirroring the TypeScript union
`Record<string, unknown> | string | number | boolean | null` of the flow
types, plus arrays (which JavaScript admits through
`typeof v === "object"`).  Mutual with the spine of arrays and of object
field lists so that decidable equality can be derived. -/
inductive JsonValue where
  | null
  | bool (b : Bool)
  | num (n : Int)
  | str (s : String)
  | arr (xs : JsonList)
  | obj (fields : JsonFields)
deriving DecidableEq, Repr

/-- Spine of a JSON array. -/
inductive JsonList where
  | nil
  | cons (hd : JsonValue) (tl : JsonList)
deriving DecidableEq, Repr

/-- Spine of a JSON object: an ordered list of key/value fields.  JavaScript
objects never carry duplicate keys, and none of the embedded operations
introduces one. -/
inductive JsonFields where
  | nil
  | cons (key : String) (val : JsonValue) (tl : JsonFields)
deriving DecidableEq, Repr
end

/-- JavaScript `typeof v === "object"`: true for plain objects, arrays and
`null`. -/
def typeofIsObject : JsonValue → Bool
  | .null => true
  | .arr _ => true
  | .obj _ => true
  | _ => false

/-- JavaScript `typeof v === "string"`. -/
def typeofIsString : JsonValue → Bool
  | .str _ => true
  | _ => false

/-- The plain-object check used by the Transform router:
`typeof data === "object" && data !== null && !Array.isArray(data)`. -/
def isPlainObject : JsonValue → Bool
  | .obj _ => true
  | _ => false

mutual
/-- JavaScript `String(v)` coercion as used by the routers. -/
def jsToString : JsonValue → String
  | .null => "null"
  | .bool true => "true"
  | .bool false => "false"
  | .num n => toString n
  | .str s => s
  | .obj _ => "[object Object]"
  | .arr xs => jsListToString xs

/-- JavaScript array-to-string coercion: elements joined by commas. -/
def jsListToString : JsonList → String
  | .nil => ""
  | .cons x .nil => jsToString x
  | .cons x tl => jsToString x ++ "," ++ jsListToString tl
end

/-- `Object.entries(data).reduce((acc, [key, value]) => ({...acc, [key]:
String(value)}), {})` from the Transform router: coerce every field value
of an object to its string form. -/
def stringifyFieldValues : JsonFields → JsonFields
  | .nil => .nil
  | .cons k v tl => .cons k (.str (jsToString v)) (stringifyFieldValues tl)

/-- The `Record<string, string>` headers coercion of the Transform router,
applied when the propagated value is a plain object. -/
def transformHeadersCoercion : JsonValue → JsonValue
  | .obj fields => .obj (stringifyFieldValues fields)
  | _ => .obj .nil

/-- True when every field value of an object-field list is a string. -/
def fieldsAllStrings : JsonFields → Bool
  | .nil => true
  | .cons _ v tl => typeofIsString v && fieldsAllStrings tl

/-- A `Record<string, string>`: an object whose values are all strings. -/
def isStringValuedMap : JsonValue → Bool
  | .obj fields => fieldsAllStrings fields
  | _ => false

/-- The per-node `data` bag (`NodeData` and its per-kind extensions in the
flow types).  Persisted configuration fields (`label`, `code`, `mode`,
`url`, `method`, `headers`, `body`, `useInputAsHeaders`, `useInputAsBody`)
and transient runtime fields (`triggerExecution`, `inputData`, `result`,
`response`, `headersInput`, `bodyInput`, `status`, `statusText`) live in
one record, as in the source where `data` is a single open object; an
absent JavaScript property is `none`. -/
structure NodeData where
  label : Option String := none
  code : Option String := none
  mode : Option String := none
  url : Option String := none
  method : Option String := none
  headers : Option String := none
  body : Option String := none
  useInputAsHeaders : Option Bool := none
  useInputAsBody : Option Bool := none
  triggerExecution : Option Nat := none
  inputData : Option JsonValue := none
  result : Option JsonValue := none
  response : Option JsonValue := none
  headersInput : Option JsonValue := none
  bodyInput : Option JsonValue := none
  status : Option Nat := none
  statusText : Option String := none
deriving DecidableEq, Repr

/-- A React Flow node: id, kind tag (`request`, `response`, `transform`,
`start`), editor position, and its data bag. -/
structure Node where
  id : String
  type : String
  position : Int × Int := (0, 0)
  data : NodeData := {}
deriving DecidableEq, Repr

/-- A directed edge with optional named ports. -/
structure Edge where
  id : String
  source : String
  target : String
  sourceHandle : Option String := none
  targetHandle : Option String := none
deriving DecidableEq, Repr

/-! ## Persistence: transient-field stripping (useAutoSave.cleanNodeDataForSave) -/

/-- `cleanNodeDataForSave` from the autosave hook: before any server or
local-draft write it spreads each node and overwrites `response`, `result`,
`headersInput`, `bodyInput`, `status`, `statusText` and `triggerExecution`
with `undefined` (dropped by `JSON.stringify`, here `none`).  The source
does not touch `inputData`. -/
def cleanNodeDataForSave (node : Node) : Node :=
  { node with data := { node.data with
      response := none
      result := none
      headersInput := none
      bodyInput := none
      status := none
      statusText := none
      triggerExecution := none } }

/-- Node list sent to the server by `saveToServer` and written to the local
draft slot by `scheduleAutoSave`. -/
def cleanNodes (nodes : List Node) : List Node :=
  nodes.map cleanNodeDataForSave

/-! ## Version Store (REST handlers over FlowDefinition documents) -/

/-- A `FlowDefinition` document: one immutable version of a flow. -/
structure FlowDefinition where
  flowId : String
  nodes : List Node
  edges : List Edge
  version : Nat
deriving DecidableEq, Repr

/-- `FlowDefinition.findOne({ flowId }).sort({ version: -1 })`: the stored
definition for `flowId` with the greatest version, if any. -/
def latestDefinition (store : List FlowDefinition) (flowId : String) :
    Option FlowDefinition :=
  store.foldl
    (fun acc d =>
      if d.flowId = flowId then
        match acc with
        | none => some d
        | some m => if m.version < d.version then some d else some m
      else acc)
    none

/-- Version number of the latest stored definition, `0` when none exists. -/
def latestVersionNum (store : List FlowDefinition) (flowId : String) : Nat :=
  match latestDefinition store flowId with
  | some d => d.version
  | none => 0

/-- The PUT `/flow-definitions/{flowId}` handler: read the latest version,
create a brand-new document with `version = latest.version + 1` (or `1`
when no definition exists), and return it.  Nothing existing is modified. -/
def putNewVersion (store : List FlowDefinition) (flowId : String)
    (nodes : List Node) (edges : List Edge) :
    List FlowDefinition × FlowDefinition :=
  let newVersion :=
    match latestDefinition store flowId with
    | some latest => latest.version + 1
    | none => 1
  let newDef : FlowDefinition :=
    { flowId := flowId, nodes := nodes, edges := edges, version := newVersion }
  (store ++ [newDef], newDef)

/-- A sequence of PUT calls on the same `flowId`; returns the final store and
the `version` values returned to the client, in call order. -/
def putNewVersionSeq (store : List FlowDefinition) (flowId : String) :
    List (List Node × List Edge) → List FlowDefinition × List Nat
  | [] => (store, [])
  | p :: ps =>
    let r := putNewVersion store flowId p.1 p.2
    let rest := putNewVersionSeq r.1 flowId ps
    (rest.1, r.2.version :: rest.2)

/-- The consecutive run `[start, start + 1, ..., start + k - 1]`: version
values strictly increasing by exactly one. -/
def versionRange (start : Nat) : Nat → List Nat
  | 0 => []
  | k + 1 => start :: versionRange (start + 1) k

/-- The body the version-restore handler (`handleRestoreVersion`) PUTs to
`/flow-definitions/{flowId}`: the viewed snapshot content, unmodified. -/
def restoreVersionRequestBody (viewingVersion : FlowDefinition) :
    List Node × List Edge :=
  (viewingVersion.nodes, viewingVersion.edges)

/-! ## Flow documents and the DELETE handler -/

/-- A `Flow` container document (fields relevant to the handlers). -/
structure Flow where
  id : String
  journeyId : String := ""
  name : String := ""
deriving DecidableEq, Repr

/-- Server-side state: flows and their append-only definition history. -/
structure Database where
  flows : List Flow
  flowDefinitions : List FlowDefinition
deriving DecidableEq, Repr

/-- The DELETE `/flows/{id}` handler: `findByIdAndDelete(id)`; on a miss
respond 404 without touching anything; on a hit remove the flow, then
`FlowDefinition.deleteMany({ flowId: id })`, and respond 200. -/
def deleteFlowHandler (db : Database) (id : String) : Database × Nat :=
  match db.flows.find? (fun f => f.id == id) with
  | none => (db, 404)
  | some _ =>
    ({ flows := db.flows.filter (fun f => f.id != id),
       flowDefinitions := db.flowDefinitions.filter (fun d => d.flowId != id) },
     200)

/-- Insert a definition into a list kept in decreasing-version order. -/
def insertByVersionDesc (d : FlowDefinition) :
    List FlowDefinition → List FlowDefinition
  | [] => [d]
  | x :: xs =>
    if x.version ≤ d.version then d :: x :: xs else x :: insertByVersionDesc d xs

/-- Sort definitions by version, newest first (`sort({ version: -1 })`). -/
def sortByVersionDesc : List FlowDefinition → List FlowDefinition
  | [] => []
  | x :: xs => insertByVersionDesc x (sortByVersionDesc xs)

/-- The GET `/flow-definitions/{flowId}/versions` handler:
`find({ flowId }).sort({ version: -1 }).limit(50)`. -/
def listVersionsHandler (defs : List FlowDefinition) (flowId : String) :
    List FlowDefinition :=
  (sortByVersionDesc (defs.filter (fun d => d.flowId == flowId))).take 50

/-! ## Handle Router (propagateDataToConnectedNodes)

Two routers exist in the source: one inside the Transform node's
`handleTransform` and one inside the Request node's `handleSendRequest`
(the latter appears identically in both copies of the Request component).
Each maps over all nodes; for a connected target it collects the
`targetHandle` values of the incoming edges and resolves
headers-then-body-then-default, first match wins. -/

/-- Per-target update of the Transform router.  Headers edge: a plain
object is coerced to a string-valued map, anything else yields an empty
headers object; body edge: stored verbatim; default: stored as `inputData`,
and additionally as `response` when the target is a Response node.
Afterwards a fresh trigger token (`Date.now()`) is stamped. -/
def applyHandleUpdateTransform (v : JsonValue) (targetHandles : List (Option String))
    (node : Node) (now : Nat) : Node :=
  let d0 := node.data
  let d1 :=
    if some "headers" ∈ targetHandles then
      if isPlainObject v then
        { d0 with headersInput := some (transformHeadersCoercion v) }
      else
        { d0 with headersInput := some (JsonValue.obj .nil) }
    else if some "body" ∈ targetHandles then
      { d0 with bodyInput := some v }
    else
      let d := { d0 with inputData := some v }
      if node.type = "response" then { d with response := some v } else d
  { node with data := { d1 with triggerExecution := some now } }

/-- Per-target update of the Request router.  Headers edge: stored verbatim
when `typeof` is object or string, else `String(data)`; body edge: verbatim;
default: `inputData` plus `response` for Response targets.  No trigger token
is stamped. -/
def applyHandleUpdateRequest (v : JsonValue) (targetHandles : List (Option String))
    (node : Node) : Node :=
  let d0 := node.data
  let d1 :=
    if some "headers" ∈ targetHandles then
      if typeofIsObject v || typeofIsString v then
        { d0 with headersInput := some v }
      else
        { d0 with headersInput := some (JsonValue.str (jsToString v)) }
    else if some "body" ∈ targetHandles then
      { d0 with bodyInput := some v }
    else
      let d := { d0 with inputData := some v }
      if node.type = "response" then { d with response := some v } else d
  { node with data := d1 }

/-- Graph-level Transform router: for every outgoing edge of `selfId`,
update the targets. -/
def propagateTransform (nodes : List Node) (edges : List Edge)
    (selfId : String) (v : JsonValue) (now : Nat) : List Node :=
  let outgoingEdges := edges.filter (fun e => e.source == selfId)
  if outgoingEdges.length > 0 then
    nodes.map fun node =>
      if outgoingEdges.any (fun e => e.target == node.id) then
        applyHandleUpdateTransform v
          ((outgoingEdges.filter (fun e => e.target == node.id)).map
            (fun e => e.targetHandle))
          node now
      else node
  else nodes

/-- Graph-level Request router. -/
def propagateRequest (nodes : List Node) (edges : List Edge)
    (selfId : String) (v : JsonValue) : List Node :=
  let outgoingEdges := edges.filter (fun e => e.source == selfId)
  if outgoingEdges.length > 0 then
    nodes.map fun node =>
      if outgoingEdges.any (fun e => e.target == node.id) then
        applyHandleUpdateRequest v
          ((outgoingEdges.filter (fun e => e.target == node.id)).map
            (fun e => e.targetHandle))
          node
      else node
  else nodes

/-! ## Transform node execution (handleTransform) -/

/-- Possible outcome of the sandboxed `new Function` evaluation: a JSON
value (`object`, `string`, `number`, `boolean` or `null` — all of which the
return-type check accepts) or a value of one of the JavaScript types the
check rejects. -/
inductive SandboxOut where
  | value (v : JsonValue)
  | undef
  | func
  | symbol
  | bigint
deriving DecidableEq, Repr

/-- The return-type check of `handleTransform`: `transformedData !== null &&
typeof not in [string, number, boolean, object]` throws.  Every `JsonValue`
passes; the other shapes fail. -/
def sandboxReturnValid : SandboxOut → Bool
  | .value _ => true
  | _ => false

/-- `handleTransform`: run the user code on the node's `inputData` (the
sandbox is passed in as `fn`; an exception is `Except.error`).  On an
exception or an invalid return type the error is surfaced locally on the
node and the graph is left untouched; otherwise `result` is stored on the
node and the value is routed to the connected targets with a fresh trigger
stamp. -/
def handleTransform (fn : Option JsonValue → Except String SandboxOut)
    (selfData : NodeData) (nodes : List Node) (edges : List Edge)
    (selfId : String) (now : Nat) : List Node :=
  match fn selfData.inputData with
  | .error _ => nodes
  | .ok out =>
    match out with
    | .value v =>
      let nodes1 := nodes.map fun node =>
        if node.id == selfId then
          { node with data := { node.data with result := some v } }
        else node
      propagateTransform nodes1 edges selfId v now
    | _ => nodes

/-! ## Request node execution (handleSendRequest) -/

/-- The axios request configuration built by `handleSendRequest`. -/
structure RequestConfig where
  method : String
  url : String
  headers : JsonValue
  data : Option JsonValue
deriving DecidableEq, Repr

/-- Result of building the request from the persisted templates. -/
structure ParsedTemplates where
  config : RequestConfig
  headersParseFailed : Bool
  bodyParseFailed : Bool
deriving DecidableEq, Repr

/-- Template handling of `handleSendRequest`.  `JSON.parse` is passed in as
`parse` (`none` models a thrown `SyntaxError`).  Headers: start from the
empty object, overwrite with the parse result, keep the empty object and
record the error on failure.  Body: only for non-GET with a nonempty
template; on failure fall back to the raw template string and record the
error.  The request config is built either way. -/
def buildRequestConfig (parse : String → Option JsonValue)
    (method url headersTemplate bodyTemplate : String) : ParsedTemplates :=
  let headersParsed := parse headersTemplate
  let parsedHeaders := headersParsed.getD (JsonValue.obj .nil)
  let bodyParsed :=
    if method ≠ "GET" ∧ bodyTemplate ≠ "" then
      some ((parse bodyTemplate).getD (JsonValue.str bodyTemplate))
    else none
  { config :=
      { method := method, url := url, headers := parsedHeaders,
        data := if method ≠ "GET" then bodyParsed else none },
    headersParseFailed := headersParsed.isNone,
    bodyParseFailed :=
      decide (method ≠ "GET" ∧ bodyTemplate ≠ "") && (parse bodyTemplate).isNone }

/-- A completed HTTP response. -/
structure HttpResponse where
  data : JsonValue
  status : Nat
  statusText : String
deriving DecidableEq, Repr

/-- Result of one run of the Request node handler: the graph afterwards,
the config actually handed to axios, and the error surfaced on the node. -/
structure SendOutcome where
  nodesAfter : List Node
  sentConfig : RequestConfig
  errorMessage : Option String
deriving DecidableEq, Repr

/-- `handleSendRequest`: build the config from the templates, issue the
request (`http` models axios; `Except.error` is a failed call — the send
happens unconditionally, template parse failures only surface an error).
On failure the error is surfaced on the node, no response is stored and
nothing propagates.  On success the node stores
`response`/`status`/`statusText` and the response data is routed
downstream. -/
def handleSendRequest (parse : String → Option JsonValue)
    (http : RequestConfig → Except String HttpResponse)
    (method url headersTemplate bodyTemplate : String)
    (nodes : List Node) (edges : List Edge) (selfId : String) :
    SendOutcome :=
  let templates := buildRequestConfig parse method url headersTemplate bodyTemplate
  match http templates.config with
  | .error e =>
    { nodesAfter := nodes, sentConfig := templates.config, errorMessage := some e }
  | .ok res =>
    let nodes1 := nodes.map fun node =>
      if node.id == selfId then
        { node with data := { node.data with
            response := some res.data
            status := some res.status
            statusText := some res.statusText } }
      else node
    { nodesAfter := propagateRequest nodes1 edges selfId res.data,
      sentConfig := templates.config,
      errorMessage :=
        if templates.headersParseFailed || templates.bodyParseFailed then
          some "Error starting execution" else none }

/-! ## Trigger effects (the `useEffect` hooks keyed on `triggerExecution`)

Both executable nodes run their handler from
`useEffect(() => { if (data?.triggerExecution) handler() },
[data?.triggerExecution, ...])`.  React runs the effect body after a render
exactly when the dependency tuple differs from the previous render's tuple;
the tuple holds the trigger token plus the identity determinants of the
handler callback.  A token of `0` models the absent (`undefined`) field,
which the guard treats as falsy. -/

/-- Dependency tuple of a trigger effect. -/
structure TriggerEffectDeps where
  triggerExecution : Nat
  callbackDeps : List String
deriving DecidableEq, Repr

/-- The effect's memory: the dependency tuple of the previous render. -/
structure TriggerEffectState where
  lastDeps : Option TriggerEffectDeps := none
deriving DecidableEq, Repr

/-- One render: the effect body runs iff the dependencies changed, and the
handler (the externally observable HTTP call or code evaluation) only runs
when the trigger token is truthy. -/
def runTriggerEffect (s : TriggerEffectState) (deps : TriggerEffectDeps) :
    TriggerEffectState × Bool :=
  if s.lastDeps = some deps then (s, false)
  else ({ lastDeps := some deps }, decide (deps.triggerExecution ≠ 0))

/-- Number of handler executions over a sequence of renders. -/
def triggerEffectCount (s : TriggerEffectState) :
    List TriggerEffectDeps → Nat
  | [] => 0
  | d :: ds =>
    let r := runTriggerEffect s d
    (if r.2 then 1 else 0) + triggerEffectCount r.1 ds

/-! ## Draft Reconciler: load-time draft-vs-server resolution -/

/-- The local draft slot `flow_{flowId}_draft`: persist-shape nodes, edges
and the write timestamp. -/
structure Draft where
  nodes : List Node
  edges : List Edge
  timestamp : Nat
deriving DecidableEq, Repr

/-- The server definition as fetched on flow open. -/
structure ServerDefinition where
  nodes : List Node
  edges : List Edge
  version : Nat
  updatedAt : Nat
deriving DecidableEq, Repr

/-- Which side won the reconciliation. -/
inductive LoadSource where
  | draft
  | server
deriving DecidableEq, Repr

/-- Outcome of `fetchFlowDefinition` reconciliation. -/
structure LoadOutcome where
  nodes : List Node
  edges : List Edge
  hasLocalChanges : Bool
  draftAfter : Option Draft
  source : LoadSource
deriving DecidableEq, Repr

/-- The reconciliation branch of `fetchFlowDefinition`: after a successful
GET, `if (localDraft && localDraft.timestamp)` compare the draft timestamp
against `new Date(updatedAt).getTime()`; strictly newer loads the draft and
flags local changes, otherwise the draft is cleared and the server content
loaded.  Without a draft (or with a falsy timestamp) the server content is
loaded.  All branches then re-baseline via `markDataAsKnown`. -/
def reconcileOnOpen (server : ServerDefinition) (localDraft : Option Draft) :
    LoadOutcome :=
  match localDraft with
  | some d =>
    if d.timestamp ≠ 0 then
      if d.timestamp > server.updatedAt then
        { nodes := d.nodes, edges := d.edges, hasLocalChanges := true,
          draftAfter := some d, source := .draft }
      else
        { nodes := server.nodes, edges := server.edges, hasLocalChanges := false,
          draftAfter := none, source := .server }
    else
      { nodes := server.nodes, edges := server.edges, hasLocalChanges := false,
        draftAfter := some d, source := .server }
  | none =>
    { nodes := server.nodes, edges := server.edges, hasLocalChanges := false,
      draftAfter := none, source := .server }

/-! ## Flow container state machine (FlowContent + useAutoSave)

State visible to the claims: the graph, the viewing-mode flags, the
retained live graph, the autosave baseline, the local draft slot, and the
sequence of PUT bodies sent to the server.  A present `flowId` is assumed
throughout (the container renders nothing without one). -/

/-- Combined component + autosave-hook state. -/
structure FlowState where
  nodes : List Node
  edges : List Edge
  isViewingOldVersion : Bool := false
  viewingVersion : Option FlowDefinition := none
  originalNodes : List Node := []
  originalEdges : List Edge := []
  isLoading : Bool := false
  initialLoad : Bool := true
  lastKnownData : Option (List Node × List Edge) := none
  hasUnsavedChanges : Bool := false
  localDraft : Option Draft := none
  serverPuts : List (List Node × List Edge) := []
deriving DecidableEq, Repr

/-- `handleNodesChange`: drag/position/removal changes are applied only when
not viewing an old version. -/
def handleNodesChange (s : FlowState) (changes : List Node → List Node) :
    FlowState :=
  if s.isViewingOldVersion then s else { s with nodes := changes s.nodes }

/-- `handleEdgesChange`, same guard. -/
def handleEdgesChange (s : FlowState) (changes : List Edge → List Edge) :
    FlowState :=
  if s.isViewingOldVersion then s else { s with edges := changes s.edges }

/-- `onConnect`: `addEdge` appends the new connection unless viewing. -/
def onConnect (s : FlowState) (e : Edge) : FlowState :=
  if s.isViewingOldVersion then s else { s with edges := s.edges ++ [e] }

/-- `onAddNode`: append a fresh node unless viewing. -/
def onAddNode (s : FlowState) (n : Node) : FlowState :=
  if s.isViewingOldVersion then s else { s with nodes := s.nodes ++ [n] }

/-- `executeFlow`: compute entry nodes (no incoming edge) and stamp the
trigger token on them; guarded against empty graphs and viewing mode, and a
graph without entry nodes only surfaces an error. -/
def executeFlow (s : FlowState) (now : Nat) : FlowState :=
  if s.nodes = [] ∨ s.isViewingOldVersion then s
  else
    let incoming := s.edges.map (fun e => e.target)
    let entryIds := (s.nodes.filter (fun n => !(incoming.contains n.id))).map
      (fun n => n.id)
    if entryIds = [] then s
    else
      { s with nodes := s.nodes.map fun n =>
          if entryIds.contains n.id then
            { n with data := { n.data with triggerExecution := some now } }
          else n }

/-- `hasDataChanged`: canonicalize (strip transients), absorb the first call
after a load, then compare against the last-known baseline, updating it on
a change.  The JSON-string comparison of the source is modelled by equality
of the canonical pairs. -/
def hasDataChangedStep (s : FlowState) : FlowState × Bool :=
  let currentData := (cleanNodes s.nodes, s.edges)
  if s.initialLoad then
    ({ s with lastKnownData := some currentData, initialLoad := false }, false)
  else if s.lastKnownData = some currentData then (s, false)
  else ({ s with lastKnownData := some currentData }, true)

/-- `scheduleAutoSave`: no-op while viewing an old version or while a load
is in flight; otherwise, when the canonical data changed, flag unsaved
changes and synchronously write the local draft (the debounced server write
is modelled separately by `saveToServer`). -/
def scheduleAutoSave (s : FlowState) (now : Nat) : FlowState :=
  if s.isViewingOldVersion ∨ s.isLoading then s
  else
    let r := hasDataChangedStep s
    if r.2 then
      { r.1 with hasUnsavedChanges := true,
                 localDraft := some
                   { nodes := cleanNodes s.nodes, edges := s.edges,
                     timestamp := now } }
    else r.1

/-- `saveToServer`: no-op while viewing or loading; otherwise PUT the
cleaned nodes and current edges; on success (`ok`) clear the local draft
and the unsaved-changes flag. -/
def saveToServer (s : FlowState) (ok : Bool) : FlowState :=
  if s.isViewingOldVersion ∨ s.isLoading then s
  else
    let s1 := { s with serverPuts := s.serverPuts ++ [(cleanNodes s.nodes, s.edges)] }
    if ok then { s1 with hasUnsavedChanges := false, localDraft := none } else s1

/-- `handleManualSave`: the Save Now button, guarded by viewing mode. -/
def handleManualSave (s : FlowState) (ok : Bool) : FlowState :=
  if s.isViewingOldVersion then s else saveToServer s ok

/-- `handleVersionSelect`: entering viewing mode retains the live graph in
`originalNodes`/`originalEdges` (only on the Live → Viewing transition) and
swaps the graph to the snapshot. -/
def handleVersionSelect (s : FlowState) (version : FlowDefinition) : FlowState :=
  let s1 :=
    if !s.isViewingOldVersion then
      { s with originalNodes := s.nodes, originalEdges := s.edges }
    else s
  { s1 with nodes := version.nodes, edges := version.edges,
            isViewingOldVersion := true, viewingVersion := some version }

/-- `handleExitViewMode`: restore the retained live graph locally and
re-baseline the autosave hook via `markDataAsKnown`. -/
def handleExitViewMode (s : FlowState) : FlowState :=
  { s with nodes := s.originalNodes, edges := s.originalEdges,
           isViewingOldVersion := false, viewingVersion := none,
           lastKnownData := some (cleanNodes s.originalNodes, s.originalEdges),
           initialLoad := false, hasUnsavedChanges := false }

/-! ## Theorems -/

/-- Claim C1, amended: on the auto-save and manual-save write paths every
node is passed through `cleanNodeDataForSave`, which strips `response`,
`result`, `headersInput`, `bodyInput`, `status`, `statusText` and
`triggerExecution` while preserving every persisted configuration field —
but it leaves the transient `inputData` untouched; and the version-restore
write path sends the viewed snapshot's nodes and edges unmodified, applying
no stripping of its own. -/
theorem cleanNodeData_strips_transients_except_inputData
    (node : Node) (v : FlowDefinition) :
    (cleanNodeDataForSave node).data.response = none ∧
    (cleanNodeDataForSave node).data.result = none ∧
    (cleanNodeDataForSave node).data.headersInput = none ∧
    (cleanNodeDataForSave node).data.bodyInput = none ∧
    (cleanNodeDataForSave node).data.status = none ∧
    (cleanNodeDataForSave node).data.statusText = none ∧
    (cleanNodeDataForSave node).data.triggerExecution = none ∧
    (cleanNodeDataForSave node).data.inputData = node.data.inputData ∧
    (cleanNodeDataForSave node).id = node.id ∧
    (cleanNodeDataForSave node).type = node.type ∧
    (cleanNodeDataForSave node).position = node.position ∧
    (cleanNodeDataForSave node).data.label = node.data.label ∧
    (cleanNodeDataForSave node).data.code = node.data.code ∧
    (cleanNodeDataForSave node).data.mode = node.data.mode ∧
    (cleanNodeDataForSave node).data.url = node.data.url ∧
    (cleanNodeDataForSave node).data.method = node.data.method ∧
    (cleanNodeDataForSave node).data.headers = node.data.headers ∧
    (cleanNodeDataForSave node).data.body = node.data.body ∧
    (cleanNodeDataForSave node).data.useInputAsHeaders = node.data.useInputAsHeaders ∧
    (cleanNodeDataForSave node).data.useInputAsBody = node.data.useInputAsBody ∧
    restoreVersionRequestBody v = (v.nodes, v.edges) := by
  refine ⟨rfl, rfl, rfl, rfl, rfl, rfl, rfl, rfl, rfl, rfl, rfl, rfl, rfl, rfl,
    rfl, rfl, rfl, rfl, rfl, rfl, rfl⟩

/-- Claim C1, counterexample: a node whose transient `inputData` is set
survives `cleanNodeDataForSave` with `inputData` intact, so the claim that
every persistence operation strips `inputData` before writing is false. -/
theorem cleanNodeData_keeps_inputData_counterexample :
    (cleanNodeDataForSave
      { id := "transform-1", type := "transform",
        data := { inputData := some (JsonValue.num 7) } }).data.inputData
      = some (JsonValue.num 7) ∧
    some (JsonValue.num 7) ≠ (none : Option JsonValue) :=
  ⟨rfl, by simp⟩

/-- Claim C4, amended: the Transform node's router stamps a fresh trigger
token on every target it delivers to, but the Request node's router leaves
the target's `triggerExecution` exactly as it was — it updates the data
slot without stamping any trigger. -/
theorem router_trigger_stamp_amended (v : JsonValue)
    (targetHandles : List (Option String)) (node : Node) (now : Nat) :
    (applyHandleUpdateTransform v targetHandles node now).data.triggerExecution
      = some now ∧
    (applyHandleUpdateRequest v targetHandles node).data.triggerExecution
      = node.data.triggerExecution := by
  constructor
  · rfl
  · unfold applyHandleUpdateRequest
    split
    · split <;> rfl
    · split
      · rfl
      · split <;> rfl

/-- Claim C4, counterexample: the Request router delivers a value to a
default-handle target (its `inputData` is updated) yet stamps no trigger
token on it — `triggerExecution` stays absent. -/
theorem request_router_no_trigger_counterexample :
    (applyHandleUpdateRequest (JsonValue.num 1) [none]
        { id := "response-1", type := "response" }).data.inputData
      = some (JsonValue.num 1) ∧
    ¬ ∃ t, (applyHandleUpdateRequest (JsonValue.num 1) [none]
        { id := "response-1", type := "response" }).data.triggerExecution
      = some t := by
  refine ⟨by decide, ?_⟩
  rintro ⟨t, ht⟩
  have h0 : (applyHandleUpdateRequest (JsonValue.num 1) [none]
      { id := "response-1", type := "response" }).data.triggerExecution
      = none := by decide
  rw [h0] at ht
  exact Option.noConfusion ht

/-- Stringifying every field value of an object yields a string-valued
map. -/
theorem fieldsAllStrings_stringify : (fs : JsonFields) →
    fieldsAllStrings (stringifyFieldValues fs) = true
  | .nil => rfl
  | .cons _ _ tl => by
    simp [stringifyFieldValues, fieldsAllStrings, typeofIsString,
      fieldsAllStrings_stringify tl]

/-- Claim C3, amended: resolution per target is first-match-wins in the
order headers, body, default, and body/default routing behaves as claimed
for both routers (body stores the value exactly; default stores `inputData`
and, for Response targets, also `response`).  The headers coercion of the
claim holds for the Transform router (string-valued map for a plain object,
empty map otherwise), but the Request router instead stores the value
verbatim whenever its `typeof` is object or string — including `null`,
arrays and strings — and `String(v)` for the remaining primitives. -/
theorem routing_correctness_amended (v : JsonValue)
    (targetHandles : List (Option String)) (node : Node) (now : Nat) :
    (some "headers" ∈ targetHandles →
      (isPlainObject v = true →
        (applyHandleUpdateTransform v targetHandles node now).data.headersInput
            = some (transformHeadersCoercion v) ∧
        isStringValuedMap (transformHeadersCoercion v) = true) ∧
      (isPlainObject v = false →
        (applyHandleUpdateTransform v targetHandles node now).data.headersInput
            = some (JsonValue.obj .nil)) ∧
      ((typeofIsObject v || typeofIsString v) = true →
        (applyHandleUpdateRequest v targetHandles node).data.headersInput = some v) ∧
      ((typeofIsObject v || typeofIsString v) = false →
        (applyHandleUpdateRequest v targetHandles node).data.headersInput
            = some (JsonValue.str (jsToString v)))) ∧
    (some "headers" ∉ targetHandles → some "body" ∈ targetHandles →
      (applyHandleUpdateTransform v targetHandles node now).data.bodyInput = some v ∧
      (applyHandleUpdateRequest v targetHandles node).data.bodyInput = some v) ∧
    (some "headers" ∉ targetHandles → some "body" ∉ targetHandles →
      (applyHandleUpdateTransform v targetHandles node now).data.inputData = some v ∧
      (applyHandleUpdateRequest v targetHandles node).data.inputData = some v ∧
      (node.type = "response" →
        (applyHandleUpdateTransform v targetHandles node now).data.response = some v ∧
        (applyHandleUpdateRequest v targetHandles node).data.response = some v)) := by
  refine ⟨fun hh => ⟨fun hp => ⟨?_, ?_⟩, fun hp => ?_, fun ht => ?_, fun ht => ?_⟩,
    fun hh hb => ⟨?_, ?_⟩, fun hh hb => ⟨?_, ?_, fun hr => ⟨?_, ?_⟩⟩⟩
  · simp [applyHandleUpdateTransform, hh, hp]
  · cases v <;> simp_all [isPlainObject, isStringValuedMap,
      transformHeadersCoercion, fieldsAllStrings_stringify]
  · simp [applyHandleUpdateTransform, hh, hp]
  · simp [applyHandleUpdateRequest, hh, ht]
  · simp [applyHandleUpdateRequest, hh, ht]
  · simp [applyHandleUpdateTransform, hh, hb]
  · simp [applyHandleUpdateRequest, hh, hb]
  · simp only [applyHandleUpdateTransform]
    simp [hh, hb]
    split <;> rfl
  · simp only [applyHandleUpdateRequest]
    simp [hh, hb]
    split <;> rfl
  · simp [applyHandleUpdateTransform, hh, hb, hr]
  · simp [applyHandleUpdateRequest, hh, hb, hr]

/-- Claim C3, counterexample: the Request router, delivering the number
`42` along a headers-handled edge, stores the string coercion of the value
in `headersInput` — not the empty map the claim requires for a value that
is not a plain object. -/
theorem request_headers_routing_counterexample :
    (applyHandleUpdateRequest (JsonValue.num 42) [some "headers"]
        { id := "request-2", type := "request" }).data.headersInput
      = some (JsonValue.str "42") ∧
    JsonValue.str "42" ≠ JsonValue.obj JsonFields.nil := by
  refine ⟨by decide, by decide⟩

/-- Claim C3, witness: the amended routing theorem evaluated on a plain
object delivered to a headers edge and on a number delivered to the default
edge of a Response target. -/
theorem routing_correctness_amended_witness :
    (applyHandleUpdateTransform (JsonValue.obj (.cons "a" (.num 1) .nil))
        [some "headers"] { id := "request-1", type := "request" } 5).data.headersInput
      = some (JsonValue.obj (.cons "a" (.str "1") .nil)) ∧
    (applyHandleUpdateRequest (JsonValue.num 2) []
        { id := "response-2", type := "response" }).data.response
      = some (JsonValue.num 2) := by
  constructor
  · have h := ((routing_correctness_amended (JsonValue.obj (.cons "a" (.num 1) .nil))
      [some "headers"] { id := "request-1", type := "request" } 5).1
      (by decide)).1 rfl
    exact h.1
  · have h := ((routing_correctness_amended (JsonValue.num 2)
      [] { id := "response-2", type := "response" } 5).2.2
      (by decide) (by decide)).2.2 rfl
    exact h.2

/-- Claim C5, confirmed: when the Transform sandbox throws, or returns a
value outside object/string/number/boolean/null, the graph is left exactly
as it was — no downstream `inputData`, `headersInput` or `bodyInput`
changes; and when the Request node's HTTP call fails, the graph is
likewise untouched (no response stored, nothing propagated) and the error
is surfaced on the node itself. -/
theorem no_propagation_on_failure
    (fn : Option JsonValue → Except String SandboxOut)
    (selfData : NodeData) (nodes : List Node) (edges : List Edge)
    (selfId : String) (now : Nat) (msg : String) (out : SandboxOut)
    (parse : String → Option JsonValue)
    (http : RequestConfig → Except String HttpResponse)
    (method url headersTemplate bodyTemplate : String) :
    (fn selfData.inputData = Except.error msg →
      handleTransform fn selfData nodes edges selfId now = nodes) ∧
    (fn selfData.inputData = Except.ok out → sandboxReturnValid out = false →
      handleTransform fn selfData nodes edges selfId now = nodes) ∧
    (http (buildRequestConfig parse method url headersTemplate bodyTemplate).config
        = Except.error msg →
      (handleSendRequest parse http method url headersTemplate bodyTemplate
          nodes edges selfId).nodesAfter = nodes ∧
      (handleSendRequest parse http method url headersTemplate bodyTemplate
          nodes edges selfId).errorMessage = some msg) := by
  refine ⟨fun h => ?_, fun h hv => ?_, fun h => ?_⟩
  · simp [handleTransform, h]
  · cases out <;> simp_all [handleTransform, sandboxReturnValid]
  · constructor <;> simp [handleSendRequest, h]

/-- Claim C5, witness: a throwing sandbox, an invalid (undefined-returning)
sandbox, and a failing HTTP call, each on a one-node graph, all leave the
graph unchanged. -/
theorem no_propagation_on_failure_witness :
    handleTransform (fun _ => Except.error "boom") {} [{ id := "a", type := "transform" }]
        [] "a" 3 = [{ id := "a", type := "transform" }] ∧
    handleTransform (fun _ => Except.ok SandboxOut.undef) {}
        [{ id := "a", type := "transform" }] [] "a" 3
      = [{ id := "a", type := "transform" }] ∧
    (handleSendRequest (fun _ => none) (fun _ => Except.error "network down")
        "GET" "https://x" "" "" [{ id := "a", type := "request" }] [] "a").nodesAfter
      = [{ id := "a", type := "request" }] := by
  refine ⟨?_, ?_, ?_⟩
  · exact (no_propagation_on_failure (fun _ => Except.error "boom") {}
      [{ id := "a", type := "transform" }] [] "a" 3 "boom" SandboxOut.undef
      (fun _ => none) (fun _ => Except.error "boom") "GET" "https://x" "" "").1 rfl
  · exact (no_propagation_on_failure (fun _ => Except.ok SandboxOut.undef) {}
      [{ id := "a", type := "transform" }] [] "a" 3 "boom" SandboxOut.undef
      (fun _ => none) (fun _ => Except.error "boom") "GET" "https://x" "" "").2.1
      rfl rfl
  · exact ((no_propagation_on_failure (fun _ => Except.error "boom") {}
      [{ id := "a", type := "request" }] [] "a" 3 "network down" SandboxOut.undef
      (fun _ => none) (fun _ => Except.error "network down")
      "GET" "https://x" "" "").2.2 rfl).1

/-- A trigger effect whose memory already holds the delivered dependency
tuple never fires again for that same tuple. -/
theorem triggerEffectCount_absorbed (s : TriggerEffectState)
    (deps : TriggerEffectDeps) (h : s.lastDeps = some deps) :
    ∀ n : Nat, triggerEffectCount s (List.replicate n deps) = 0 := by
  intro n
  induction n with
  | zero => rfl
  | succ n ih =>
    simp [List.replicate, triggerEffectCount, runTriggerEffect, h, ih]

/-- Claim C7, amended: a trigger effect re-fires exactly when its
dependency tuple changed, and that tuple holds the handler callback's
identity determinants (`code`/`inputData` for Transform,
`method`/`url`/`headers`/`body` for Request) alongside the token.  So
delivering the same token any number of times produces at most one handler
execution while the callback dependencies stay unchanged — but a
redelivery of the same token after the callback dependencies changed fires
the handler again, so per-distinct-token idempotency does not hold in
general. -/
theorem trigger_idempotent_amended (s : TriggerEffectState)
    (deps deps2 : TriggerEffectDeps) (n : Nat) :
    triggerEffectCount s (List.replicate n deps) ≤ 1 ∧
    (s.lastDeps = some deps → deps ≠ deps2 → deps2.triggerExecution ≠ 0 →
      (runTriggerEffect s deps2).2 = true) := by
  constructor
  · cases n with
    | zero => exact Nat.zero_le 1
    | succ n =>
      by_cases h : s.lastDeps = some deps
      · simp [triggerEffectCount_absorbed s deps h]
      · simp [List.replicate, triggerEffectCount, runTriggerEffect, h,
          triggerEffectCount_absorbed { lastDeps := some deps } deps rfl]
        split <;> simp
  · intro h hne ht
    simp [runTriggerEffect, h, hne, ht]

/-- Claim C7, witness: two renders with an unchanged dependency tuple fire
at most once, and a redelivery of token `7` with changed callback
dependencies fires again. -/
theorem trigger_idempotent_amended_witness :
    triggerEffectCount { lastDeps := none }
        (List.replicate 2 (TriggerEffectDeps.mk 7 ["inputX"])) ≤ 1 ∧
    (runTriggerEffect { lastDeps := some (TriggerEffectDeps.mk 7 ["inputX"]) }
        (TriggerEffectDeps.mk 7 ["inputY"])).2 = true := by
  constructor
  · exact (trigger_idempotent_amended { lastDeps := none }
      (TriggerEffectDeps.mk 7 ["inputX"]) (TriggerEffectDeps.mk 7 ["inputY"]) 2).1
  · exact (trigger_idempotent_amended
      { lastDeps := some (TriggerEffectDeps.mk 7 ["inputX"]) }
      (TriggerEffectDeps.mk 7 ["inputX"]) (TriggerEffectDeps.mk 7 ["inputY"]) 2).2
      rfl (by decide) (by decide)

/-- Claim C7, counterexample: the token `7` is delivered twice — the two
renders differ only in the handler callback's dependencies, as happens in
the source whenever a delivery rewrites `inputData` or the header/body
templates between two stamps of the same millisecond — and the handler
executes twice: two code evaluations or HTTP calls for one distinct
token. -/
theorem same_token_double_execution_counterexample :
    TriggerEffectDeps.mk 7 ["inputX"] ≠ TriggerEffectDeps.mk 7 ["inputY"] ∧
    (TriggerEffectDeps.mk 7 ["inputX"]).triggerExecution
      = (TriggerEffectDeps.mk 7 ["inputY"]).triggerExecution ∧
    triggerEffectCount { lastDeps := none }
      [TriggerEffectDeps.mk 7 ["inputX"], TriggerEffectDeps.mk 7 ["inputY"]] = 2 := by
  refine ⟨by decide, rfl, by decide⟩

/-- Claim C6, confirmed: on flow open, with a local draft written at `T1`
and the server definition updated at `T2`, the reconciler loads the draft
(and flags local changes, keeping the draft) exactly when `T1 > T2`;
otherwise the server content is loaded and the stale draft discarded. -/
theorem draft_precedence (server : ServerDefinition) (d : Draft)
    (hts : 0 < d.timestamp) :
    ((reconcileOnOpen server (some d)).source = LoadSource.draft ↔
        server.updatedAt < d.timestamp) ∧
    (server.updatedAt < d.timestamp →
      reconcileOnOpen server (some d) =
        { nodes := d.nodes, edges := d.edges, hasLocalChanges := true,
          draftAfter := some d, source := .draft }) ∧
    (¬ server.updatedAt < d.timestamp →
      reconcileOnOpen server (some d) =
        { nodes := server.nodes, edges := server.edges, hasLocalChanges := false,
          draftAfter := none, source := .server }) := by
  have hne : d.timestamp ≠ 0 := Nat.pos_iff_ne_zero.mp hts
  by_cases h : server.updatedAt < d.timestamp <;>
    simp [reconcileOnOpen, hne, h, gt_iff_lt]

/-- Claim C6, witness: a draft stamped at 9 beats a server definition
updated at 5. -/
theorem draft_precedence_witness :
    (0 : Nat) < 9 ∧
    ((reconcileOnOpen ⟨[], [], 1, 5⟩ (some ⟨[], [], 9⟩)).source = LoadSource.draft ↔
      5 < 9) :=
  ⟨by decide, (draft_precedence ⟨[], [], 1, 5⟩ ⟨[], [], 9⟩ (by decide)).1⟩

/-- Claim C8, amended: on a header-template parse failure the request is
built from the empty object — not from the raw template string — while a
body-template parse failure does fall back to the raw string; in both
cases the failure is recorded (surfaced on the node) and the request is
still issued with the fallback config. -/
theorem template_parse_fallback_amended
    (parse : String → Option JsonValue)
    (http : RequestConfig → Except String HttpResponse)
    (method url headersTemplate bodyTemplate : String)
    (nodes : List Node) (edges : List Edge) (selfId : String) :
    (parse headersTemplate = none →
      (buildRequestConfig parse method url headersTemplate bodyTemplate).config.headers
          = JsonValue.obj .nil ∧
      (buildRequestConfig parse method url headersTemplate bodyTemplate).headersParseFailed
          = true) ∧
    (method ≠ "GET" → bodyTemplate ≠ "" → parse bodyTemplate = none →
      (buildRequestConfig parse method url headersTemplate bodyTemplate).config.data
          = some (JsonValue.str bodyTemplate) ∧
      (buildRequestConfig parse method url headersTemplate bodyTemplate).bodyParseFailed
          = true) ∧
    (handleSendRequest parse http method url headersTemplate bodyTemplate
        nodes edges selfId).sentConfig
      = (buildRequestConfig parse method url headersTemplate bodyTemplate).config := by
  refine ⟨fun h => ⟨?_, ?_⟩, fun hm hb h => ⟨?_, ?_⟩, ?_⟩
  · simp [buildRequestConfig, h]
  · simp [buildRequestConfig, h]
  · simp [buildRequestConfig, hm, hb, h]
  · simp [buildRequestConfig, hm, hb, h]
  · rcases hh : http (buildRequestConfig parse method url headersTemplate
      bodyTemplate).config with e | r <;> simp [handleSendRequest, hh]

/-- Claim C8, witness: with a parser that rejects both templates (as
`JSON.parse` does on these strings), the POST config carries empty-object
headers and the raw body string, and the config sent equals the built
config. -/
theorem template_parse_fallback_amended_witness :
    (buildRequestConfig (fun _ => none) "POST" "https://x" "oops" "raw body").config.headers
        = JsonValue.obj .nil ∧
    (buildRequestConfig (fun _ => none) "POST" "https://x" "oops" "raw body").config.data
        = some (JsonValue.str "raw body") ∧
    (handleSendRequest (fun _ => none) (fun _ => Except.error "down")
        "POST" "https://x" "oops" "raw body" [] [] "a").sentConfig
      = (buildRequestConfig (fun _ => none) "POST" "https://x" "oops" "raw body").config := by
  refine ⟨?_, ?_, ?_⟩
  · exact ((template_parse_fallback_amended (fun _ => none)
      (fun _ => Except.error "down") "POST" "https://x" "oops" "raw body"
      [] [] "a").1 rfl).1
  · exact ((template_parse_fallback_amended (fun _ => none)
      (fun _ => Except.error "down") "POST" "https://x" "oops" "raw body"
      [] [] "a").2.1 (by decide) (by decide) rfl).1
  · exact (template_parse_fallback_amended (fun _ => none)
      (fun _ => Except.error "down") "POST" "https://x" "oops" "raw body"
      [] [] "a").2.2

/-- Claim C8, counterexample: on a failing headers-template parse the built
config's headers are the empty object, not the raw template string the
claim requires. -/
theorem headers_template_fallback_counterexample :
    (buildRequestConfig (fun _ => none) "POST" "https://x" "oops" "").config.headers
        = JsonValue.obj JsonFields.nil ∧
    JsonValue.obj JsonFields.nil ≠ JsonValue.str "oops" := by
  exact ⟨rfl, by decide⟩

/-- Appending one definition steps the latest-definition fold by one
application of its combining function. -/
theorem latestDefinition_append (store : List FlowDefinition) (d : FlowDefinition)
    (flowId : String) :
    latestDefinition (store ++ [d]) flowId =
      (if d.flowId = flowId then
        match latestDefinition store flowId with
        | none => some d
        | some m => if m.version < d.version then some d else some m
      else latestDefinition store flowId) := by
  unfold latestDefinition
  rw [List.foldl_append]
  rfl

/-- The version returned by a PUT is one above the stored maximum. -/
theorem putNewVersion_version (store : List FlowDefinition) (flowId : String)
    (nodes : List Node) (edges : List Edge) :
    (putNewVersion store flowId nodes edges).2.version
      = latestVersionNum store flowId + 1 := by
  unfold putNewVersion latestVersionNum
  cases hl : latestDefinition store flowId <;> simp [hl]

/-- After a PUT the stored maximum version has grown by exactly one. -/
theorem latestVersionNum_put (store : List FlowDefinition) (flowId : String)
    (nodes : List Node) (edges : List Edge) :
    latestVersionNum (putNewVersion store flowId nodes edges).1 flowId
      = latestVersionNum store flowId + 1 := by
  cases hl : latestDefinition store flowId with
  | none =>
    simp [putNewVersion, latestVersionNum, latestDefinition_append, hl]
  | some m =>
    simp [putNewVersion, latestVersionNum, latestDefinition_append, hl,
      Nat.lt_succ_self]

/-- The versions returned by a run of PUT calls are the consecutive run
starting just above the stored maximum. -/
theorem putNewVersionSeq_versions (flowId : String) :
    ∀ (payloads : List (List Node × List Edge)) (store : List FlowDefinition),
      (putNewVersionSeq store flowId payloads).2 =
        versionRange (latestVersionNum store flowId + 1) payloads.length := by
  intro payloads
  induction payloads with
  | nil => intro store; rfl
  | cons p ps ih =>
    intro store
    have h1 := ih (putNewVersion store flowId p.1 p.2).1
    rw [latestVersionNum_put] at h1
    simp [putNewVersionSeq, versionRange, putNewVersion_version, h1]

/-- Claim C2, confirmed: each PUT on a `flowId` appends a brand-new
definition — nothing stored is modified — whose version is the previous
latest plus one, or `1` when no definition exists; hence a run of PUT
calls starting from an empty history returns the versions
`1, 2, 3, ...`, strictly increasing by exactly one. -/
theorem putNewVersion_monotonic (store : List FlowDefinition) (flowId : String)
    (nodes : List Node) (edges : List Edge)
    (payloads : List (List Node × List Edge)) :
    (putNewVersion store flowId nodes edges).1
        = store ++ [(putNewVersion store flowId nodes edges).2] ∧
    (latestDefinition store flowId = none →
      (putNewVersion store flowId nodes edges).2.version = 1) ∧
    (∀ d0, latestDefinition store flowId = some d0 →
      (putNewVersion store flowId nodes edges).2.version = d0.version + 1) ∧
    (latestDefinition store flowId = none →
      (putNewVersionSeq store flowId payloads).2 = versionRange 1 payloads.length) := by
  refine ⟨rfl, fun h => ?_, fun d0 h => ?_, fun h => ?_⟩
  · simp [putNewVersion, h]
  · simp [putNewVersion, h]
  · have h2 := putNewVersionSeq_versions flowId payloads store
    rwa [show latestVersionNum store flowId = 0 from by
      simp [latestVersionNum, h]] at h2

/-- Claim C2, witness: three PUT calls on a fresh flow return versions
`[1, 2, 3]`. -/
theorem putNewVersion_monotonic_witness :
    latestDefinition [] "flow-1" = none ∧
    (putNewVersionSeq [] "flow-1" [([], []), ([], []), ([], [])]).2
        = versionRange 1 3 ∧
    versionRange 1 3 = [1, 2, 3] :=
  ⟨rfl,
   (putNewVersion_monotonic [] "flow-1" [] [] [([], []), ([], []), ([], [])]).2.2.2 rfl,
   rfl⟩

/-- Claim C9, confirmed: while viewing an old version, every mutation entry
point — node changes, edge changes, connect, add node, execute, autosave
scheduling and server save — returns the state unchanged, and selecting
another version does not clobber the retained live graph; entering viewing
mode from the live state and exiting restores exactly the previously-live
nodes and edges, locally (the server request log and draft slot are
untouched). -/
theorem viewing_mode_readonly (s : FlowState) (v : FlowDefinition) :
    (s.isViewingOldVersion = true →
      (∀ f, handleNodesChange s f = s) ∧
      (∀ f, handleEdgesChange s f = s) ∧
      (∀ e, onConnect s e = s) ∧
      (∀ n, onAddNode s n = s) ∧
      (∀ now, executeFlow s now = s) ∧
      (∀ now, scheduleAutoSave s now = s) ∧
      (∀ ok, handleManualSave s ok = s) ∧
      (handleVersionSelect s v).originalNodes = s.originalNodes ∧
      (handleVersionSelect s v).originalEdges = s.originalEdges) ∧
    (s.isViewingOldVersion = false →
      (handleVersionSelect s v).nodes = v.nodes ∧
      (handleVersionSelect s v).edges = v.edges ∧
      (handleVersionSelect s v).isViewingOldVersion = true ∧
      (handleExitViewMode (handleVersionSelect s v)).nodes = s.nodes ∧
      (handleExitViewMode (handleVersionSelect s v)).edges = s.edges ∧
      (handleExitViewMode (handleVersionSelect s v)).serverPuts = s.serverPuts ∧
      (handleExitViewMode (handleVersionSelect s v)).localDraft = s.localDraft ∧
      (handleExitViewMode (handleVersionSelect s v)).isViewingOldVersion = false) := by
  constructor
  · intro h
    refine ⟨fun f => ?_, fun f => ?_, fun e => ?_, fun n => ?_, fun now => ?_,
      fun now => ?_, fun ok => ?_, ?_, ?_⟩
    · simp [handleNodesChange, h]
    · simp [handleEdgesChange, h]
    · simp [onConnect, h]
    · simp [onAddNode, h]
    · simp [executeFlow, h]
    · simp [scheduleAutoSave, h]
    · simp [handleManualSave, h]
    · simp [handleVersionSelect, h]
    · simp [handleVersionSelect, h]
  · intro h
    refine ⟨?_, ?_, ?_, ?_, ?_, ?_, ?_, ?_⟩ <;>
      simp [handleVersionSelect, handleExitViewMode, h]

/-- Claim C9, witness: a concrete viewing-mode state absorbs a node
mutation, and a live state survives a select-then-exit round trip with its
graph intact. -/
theorem viewing_mode_readonly_witness :
    handleNodesChange
      { nodes := [{ id := "a", type := "transform" }], edges := [],
        isViewingOldVersion := true } (fun _ => [])
      = { nodes := [{ id := "a", type := "transform" }], edges := [],
          isViewingOldVersion := true } ∧
    (handleExitViewMode (handleVersionSelect
        { nodes := [{ id := "a", type := "transform" }], edges := [] }
        { flowId := "f", nodes := [], edges := [], version := 1 })).nodes
      = [{ id := "a", type := "transform" }] := by
  constructor
  · exact ((viewing_mode_readonly
      { nodes := [{ id := "a", type := "transform" }], edges := [],
        isViewingOldVersion := true }
      { flowId := "f", nodes := [], edges := [], version := 1 }).1 rfl).1
      (fun _ => [])
  · exact ((viewing_mode_readonly
      { nodes := [{ id := "a", type := "transform" }], edges := [] }
      { flowId := "f", nodes := [], edges := [], version := 1 }).2 rfl).2.2.2.1

/-- Claim C10, confirmed: a successful DELETE `/flows/{id}` removes every
`FlowDefinition` whose `flowId` is that id, so listing the flow's versions
afterwards yields the empty list. -/
theorem delete_flow_deletes_versions (db : Database) (id : String)
    (h : (deleteFlowHandler db id).2 = 200) :
    listVersionsHandler (deleteFlowHandler db id).1.flowDefinitions id = [] := by
  unfold deleteFlowHandler at h ⊢
  cases hf : db.flows.find? (fun f => f.id == id) with
  | none => rw [hf] at h; simp at h
  | some fl =>
    show listVersionsHandler
      (db.flowDefinitions.filter (fun d => d.flowId != id)) id = []
    unfold listVersionsHandler
    have hnil : ((db.flowDefinitions.filter (fun d => d.flowId != id)).filter
        (fun d => d.flowId == id)) = [] := by
      rw [List.filter_eq_nil_iff]
      intro a ha
      rw [List.mem_filter] at ha
      simp_all
    rw [hnil]
    rfl

/-- Claim C10, witness: deleting a flow with a two-version history empties
its version listing. -/
theorem delete_flow_deletes_versions_witness :
    (deleteFlowHandler
      { flows := [{ id := "f1" }],
        flowDefinitions := [{ flowId := "f1", nodes := [], edges := [], version := 1 },
                            { flowId := "f1", nodes := [], edges := [], version := 2 }] }
      "f1").2 = 200 ∧
    listVersionsHandler
      (deleteFlowHandler
        { flows := [{ id := "f1" }],
          flowDefinitions := [{ flowId := "f1", nodes := [], edges := [], version := 1 },
                              { flowId := "f1", nodes := [], edges := [], version := 2 }] }
        "f1").1.flowDefinitions "f1" = [] := by
  refine ⟨by decide, ?_⟩
  exact delete_flow_deletes_versions
    { flows := [{ id := "f1" }],
      flowDefinitions := [{ flowId := "f1", nodes := [], edges := [], version := 1 },
                          { flowId := "f1", nodes := [], edges := [], version := 2 }] }
    "f1" (by decide)

end Mozart
